import Mathlib

/-!
Verification development for the `MomentumLongV5` trading strategy
(`src/legacy/momentum_long_v5.py`).

The strategy's single-bar decision function `run`, its cooldown helper
`should_cool_down`, and the indicator arithmetic it calls (talib `MACD`
and `RSI`, pandas session filtering and 5-minute resampling) are embedded
shallowly:

* prices and all float arithmetic are modelled over `ℚ`;
* a NaN indicator entry (talib's warm-up output) is `none`, and every
  comparison against `none` is `false`, as float comparisons with NaN are;
* the module-level dictionaries of `liualgotrader.common.trading_data`
  (plus the two class-level dictionaries `whipsawed` / `down_cross`) are
  functions `String → Option _` collected in `TDState`;
* timestamps are natural numbers: bar times in minutes (so the session
  filter and `5min` resampling are arithmetic on them), `now` and the
  cooldown expiries in seconds;
* raisable situations (`KeyError` on a missing dictionary entry,
  `IndexError` on an out-of-range array index, `ZeroDivisionError`, the
  configuration `Exception`, a non-connectivity failure of the account
  fetch) are an explicit `Except PyErr` result; the global dictionary
  writes made before a raise survive it, so `run` returns the state next
  to the `Except` rather than inside it;
* the audit-only dictionaries `buy_indicators` / `sell_indicators` and the
  `tlog` calls are omitted: the source never reads them for control flow.
-/

namespace MV5

/-- One row of `minute_history`: timestamp (in minutes), close, volume,
vwap and average price. -/
structure Bar where
  time : ℕ
  close : ℚ
  volume : ℚ
  vwap : ℚ
  average : ℚ

deriving DecidableEq

/-- The exceptions the embedded `run` can surface. -/
inductive PyErr where
  | keyError
  | indexError
  | zeroDiv
  | configError
  | apiError

deriving DecidableEq

inductive OSide where
  | buy
  | sell

deriving DecidableEq

inductive OType where
  | market
  | limit

deriving DecidableEq

/-- The order dict `run` returns when it acts. -/
structure OrderIntent where
  side : OSide
  qty : ℤ
  otype : OType
  limit_price : Option ℚ

deriving DecidableEq

/-- The `(bool, dict)` pair `run` returns: `(false, none)` is "no action". -/
abbrev RunRes := Bool × Option OrderIntent

/-- Global per-symbol trading state: the `trading_data` dictionaries plus
the class-level `whipsawed` and `down_cross` maps. -/
structure TDState where
  cool_down : String → Option ℕ
  down_cross : String → Option ℚ
  whipsawed : String → Option Bool
  target_prices : String → Option ℚ
  stop_prices : String → Option ℚ
  latest_cost_basis : String → Option ℚ
  latest_scalp_basis : String → Option ℚ
  buy_time : String → Option ℕ
  open_orders : String → Bool
  last_used_strategy : String → Option String

/-- Point update of a dictionary-as-function. -/
def upd {α : Type} (f : String → Option α) (k : String) (v : Option α) :
    String → Option α :=
  fun s => if s = k then v else f s

/-- Ambient configuration: `config.risk` and `config.market_open`
(the latter in seconds). -/
structure Config where
  risk : ℚ
  market_open : ℕ

/-- Strict comparison with Python/NumPy NaN semantics: a comparison
involving NaN (`none`) is `false`. -/
def oLT : Option ℚ → Option ℚ → Bool
  | some x, some y => decide (x < y)
  | _, _ => false

/-- Non-strict comparison with NaN semantics. -/
def oLE : Option ℚ → Option ℚ → Bool
  | some x, some y => decide (x ≤ y)
  | _, _ => false

/-- Python truthiness of an optional float: `None` and `0.0` are falsy. -/
def truthyQ : Option ℚ → Bool
  | none => false
  | some x => decide (x ≠ 0)

/-- Negative NumPy indexing `xs[-(i+1)]`: out of range raises `IndexError`. -/
def aidx {α : Type} (xs : List α) (i : ℕ) : Except PyErr α :=
  if h : i < xs.length then
    .ok (xs.get ⟨xs.length - 1 - i, by omega⟩)
  else .error .indexError

/-- `now.replace(second=0, microsecond=0)` on a timestamp in seconds. -/
def truncMin (t : ℕ) : ℕ := t - t % 60

/-- Round half to even at integer precision (Python's `round`). -/
def rndHalfEven (x : ℚ) : ℤ :=
  let f := ⌊x⌋
  if x - f < 1 / 2 then f
  else if x - f > 1 / 2 then f + 1
  else if f % 2 = 0 then f else f + 1

/-- Python `round(x, n)` over `ℚ`. -/
def pyRound (n : ℕ) (x : ℚ) : ℚ := (rndHalfEven (x * 10 ^ n) : ℚ) / 10 ^ n

/-- `round` mapped over a possibly-NaN value (`round(nan) = nan`). -/
def oRound (n : ℕ) : Option ℚ → Option ℚ
  | none => none
  | some x => some (pyRound n x)

/-- Exchange session filter `between_time("9:30", "16:00")` on a
minute timestamp (both ends inclusive, pandas default). -/
def inSession (t : ℕ) : Bool := decide (570 ≤ t % 1440) && decide (t % 1440 ≤ 960)

/-- The session-filtered bars of the history. -/
def sessionBars (hist : List Bar) : List Bar := hist.filter (fun b => inSession b.time)

/-- The session-filtered close series
(`minute_history["close"].dropna().between_time("9:30", "16:00")`). -/
def sessionCloses (hist : List Bar) : List ℚ := (sessionBars hist).map (·.close)

/-- Tail of `.resample("5min").last().dropna()`: last close of each run of
bars sharing a 5-minute bucket (`time / 5`), over time-sorted input. -/
def resample5go (k : ℕ) (lastc : ℚ) : List Bar → List ℚ
  | [] => [lastc]
  | b :: rest =>
    if b.time / 5 = k then resample5go (b.time / 5) b.close rest
    else lastc :: resample5go (b.time / 5) b.close rest

/-- `.resample("5min").last().dropna()` of a close series. -/
def resample5 : List Bar → List ℚ
  | [] => []
  | b :: rest => resample5go (b.time / 5) b.close rest

/-- The running-EMA tail: emits the current EMA value, then folds each new
observation in with weight `a`. -/
def emaScan (a : ℚ) : ℚ → List ℚ → List ℚ
  | e, [] => [e]
  | e, x :: r => e :: emaScan a (a * x + (1 - a) * e) r

/-- talib exponential moving average: NaN for the first `p - 1` outputs,
seeded with the simple average of the first `p` inputs, smoothing factor
`2 / (p + 1)`. -/
def ema (p : ℕ) (xs : List ℚ) : List (Option ℚ) :=
  if xs.length < p ∨ p = 0 then xs.map (fun _ => none)
  else
    let a : ℚ := 2 / (p + 1)
    let seed : ℚ := (xs.take p).sum / p
    List.replicate (p - 1) none ++ (emaScan a seed (xs.drop p)).map some

/-- Pointwise difference of two possibly-NaN series. -/
def osub : Option ℚ → Option ℚ → Option ℚ
  | some x, some y => some (x - y)
  | _, _ => none

/-- The MACD line for fast period 13 and slow period 21. -/
def macdLine (xs : List ℚ) : List (Option ℚ) :=
  List.zipWith osub (ema 13 xs) (ema 21 xs)

/-- The MACD signal line: a 9-period EMA over the valid region of the MACD
line, which for slow period 21 starts at index 20 (talib's lookback). -/
def signalCalc (m : List (Option ℚ)) : List (Option ℚ) :=
  if m.length ≤ 20 then m.map (fun _ => none)
  else List.replicate 20 none ++ ema 9 ((m.drop 20).filterMap id)

/-- `MACD(xs, 13, 21)`: the MACD line and its signal line. -/
def macdCalc (xs : List ℚ) : List (Option ℚ) × List (Option ℚ) :=
  (macdLine xs, signalCalc (macdLine xs))

/-- Consecutive differences of a series. -/
def diffs : List ℚ → List ℚ
  | x :: y :: r => (y - x) :: diffs (y :: r)
  | _ => []

def gainOf (d : ℚ) : ℚ := if d > 0 then d else 0

def lossOf (d : ℚ) : ℚ := if d < 0 then -d else 0

/-- Wilder-smoothed RSI tail over the remaining differences. -/
def rsiScan (p : ℚ) (ag al : ℚ) : List ℚ → List ℚ
  | [] => []
  | d :: r =>
    let ag2 := (ag * (p - 1) + gainOf d) / p
    let al2 := (al * (p - 1) + lossOf d) / p
    (if ag2 + al2 = 0 then 0 else 100 * ag2 / (ag2 + al2)) :: rsiScan p ag2 al2 r

/-- talib `RSI(xs, p)`: NaN for the first `p` outputs, then Wilder's
smoothed gain/loss ratio (0 on a flat window, talib's convention). -/
def rsiCalc (p : ℕ) (xs : List ℚ) : List (Option ℚ) :=
  if xs.length < p + 1 ∨ p = 0 then xs.map (fun _ => none)
  else
    let ds := diffs xs
    let ag0 := ((ds.take p).map gainOf).sum / p
    let al0 := ((ds.take p).map lossOf).sum / p
    let first := if ag0 + al0 = 0 then 0 else 100 * ag0 / (ag0 + al0)
    List.replicate p none ++ (first :: rsiScan p ag0 al0 (ds.drop p)).map some

/-- `MomentumLongV5.should_cool_down` on one symbol's entry: suppress while
`cool_down[symbol]` is set and not before the truncated current minute (no
write in that case), otherwise write `None` and let evaluation proceed.
Result: (return value, the entry after the call). -/
def should_cool_down (cd : Option ℕ) (now : ℕ) : Bool × Option ℕ :=
  match cd with
  | some t => if truncMin now ≤ t then (true, some t) else (false, none)
  | none => (false, none)

/-- Outcome of the zero-crossing / trend block (source lines 106-138):
mark a downward crossing, reset on an upward crossing, or fall through to
the buy decision with `to_buy` computed. -/
inductive TrendStep where
  | downCross
  | upCross
  | evalBuy (toBuy : Bool)

deriving DecidableEq

/-- Line 107, `macd[-1] < 0 <= macd[-2] and not self.down_cross.get(symbol,
None)`: the chained comparison evaluates `macd[-1] < 0` first and reads
`macd[-2]` only when that is true (NumPy access raises before the
comparison value matters, and a NaN comparison is false). -/
def crossDown (anchor : Option ℚ) (macd : List (Option ℚ)) (m1 : Option ℚ) :
    Except PyErr Bool :=
  if oLT m1 (some 0) then
    match aidx macd 1 with
    | .error e => .error e
    | .ok m2 => .ok (oLE (some 0) m2 && !truthyQ anchor)
  else .ok false

/-- Lines 125-130, the trend-confirmation conjunction `down_cross and
macd[-1] > macd[-2] > macd[-3] and macd[-1] > macd_signal[-1] >
macd_signal[-2] and macd[-2] > macd_signal[-2]`, with Python's
left-to-right access order and short-circuiting. -/
def trendCond (anchor : Option ℚ) (macd msig : List (Option ℚ)) (m1 : Option ℚ) :
    Except PyErr Bool :=
  if truthyQ anchor then
    match aidx macd 1 with
    | .error e => .error e
    | .ok m2 =>
      if oLT m2 m1 then
        match aidx macd 2 with
        | .error e => .error e
        | .ok m3 =>
          if oLT m3 m2 then
            match aidx msig 0 with
            | .error e => .error e
            | .ok s1 =>
              if oLT s1 m1 then
                match aidx msig 1 with
                | .error e => .error e
                | .ok s2 => .ok (oLT s2 s1 && oLT s2 m2)
              else .ok false
          else .ok false
      else .ok false
  else .ok false

/-- Lines 106-138 of the source: the 5-minute MACD zero-crossing state
machine and the trend-confirmation test. `anchor` is
`self.down_cross.get(symbol, None)`; its Python truthiness is `truthyQ`. -/
def trendSignal (anchor : Option ℚ) (macd msig : List (Option ℚ)) (close : ℚ) :
    Except PyErr TrendStep :=
  match aidx macd 0 with
  | .error e => .error e
  | .ok m1 =>
    match crossDown anchor macd m1 with
    | .error e => .error e
    | .ok b1 =>
      if b1 then .ok .downCross
      else if truthyQ anchor && oLE (some 0) m1 then .ok .upCross
      else
        match trendCond anchor macd msig m1 with
        | .error e => .error e
        | .ok c =>
          if c then
            match anchor with
            | some a => .ok (.evalBuy (decide (close < a)))
            | none => .ok (.evalBuy false)
          else .ok (.evalBuy false)

/-- Result of one `trading_api.get_account()` call: a portfolio value, a
`ConnectionError`, or any other exception. -/
inductive FetchErr where
  | conn
  | other

deriving DecidableEq

/-- The bounded retry loop (source lines 173-185): up to `fuel` attempts,
retrying only on `ConnectionError`; `i` numbers the attempts. An
exhausted loop leaves the value `None` (`.ok none`); a non-connectivity
failure propagates. -/
def fetchPV (api : ℕ → Except FetchErr ℚ) : ℕ → ℕ → Except PyErr (Option ℚ)
  | 0, _ => .ok none
  | r + 1, i =>
    match api i with
    | .ok v => .ok (some v)
    | .error .conn => fetchPV api r (i + 1)
    | .error .other => .error .apiError

/-- Lines 170-195: resolve the portfolio value. A caller-supplied value is
used as is; otherwise the gateway is tried 3 times, `if not
portfolio_value` turns an exhausted loop or a fetched `0.0` into "no
action" (`.ok none`), and having neither a value nor a gateway raises the
fatal configuration error. -/
def pvResolve (pv : Option ℚ) (api : Option (ℕ → Except FetchErr ℚ)) :
    Except PyErr (Option ℚ) :=
  match pv with
  | some v => .ok (some v)
  | none =>
    match api with
    | none => .error .configError
    | some f =>
      match fetchPV f 3 0 with
      | .error e => .error e
      | .ok none => .ok none
      | .ok (some v) => if v = 0 then .ok none else .ok (some v)

/-- Lines 197-203: `portfolio_value * config.risk // (close - stop)`,
floored to 1 when the floor division yields 0 (`if not shares_to_buy`). -/
def sharesCalc (pv risk close stopv : ℚ) : ℤ :=
  let s : ℤ := ⌊pv * risk / (close - stopv)⌋
  if s = 0 then 1 else s

/-- Lines 165-235: after the risk gate passes, persist the new stop and
target prices, resolve the portfolio value, size the position (the source
divides by the stop price it just stored, hence the re-read) and emit the
buy order. `anchor` is `self.down_cross[symbol]`. -/
def buyTail (cfg : Config) (st : TDState) (sym : String) (position : ℤ)
    (data : Bar) (pv : Option ℚ) (api : Option (ℕ → Except FetchErr ℚ))
    (morningRush : Bool) (anchor : ℚ) : TDState × Except PyErr RunRes :=
  let stop_price := data.close * (96 / 100)
  let target_price := anchor * (112 / 100)
  let st1 := {st with
    target_prices := upd st.target_prices sym (some target_price),
    stop_prices := upd st.stop_prices sym (some stop_price)}
  match pvResolve pv api with
  | .error e => (st1, .error e)
  | .ok none => (st1, .ok (false, none))
  | .ok (some v) =>
    let stopRead := (st1.stop_prices sym).getD 0
    if data.close - stopRead = 0 then (st1, .error .zeroDiv)
    else
      let shares := sharesCalc v cfg.risk data.close stopRead - position
      if shares > 0 then
        let st2 := {st1 with whipsawed := upd st1.whipsawed sym (some false)}
        let buy_price := max data.close data.vwap
        if morningRush then
          (st2, .ok (true, some ⟨.buy, shares, .market, none⟩))
        else
          (st2, .ok (true, some ⟨.buy, shares, .limit, some buy_price⟩))
      else (st1, .ok (false, none))

/-- The buy side of `run` (source lines 89-235) after its eligibility
guard, taking the already-computed 5-minute MACD/signal and the 1-minute
RSI series. Returns the state (mutations survive a raise) next to the
result. -/
def buyEval (cfg : Config) (st : TDState) (sym : String) (position : ℤ)
    (macd msig rsi : List (Option ℚ)) (data : Bar) (now : ℕ)
    (pv : Option ℚ) (api : Option (ℕ → Except FetchErr ℚ))
    (morningRush : Bool) : TDState × Except PyErr RunRes :=
  match trendSignal (st.down_cross sym) macd msig data.close with
  | .error e => (st, .error e)
  | .ok .downCross =>
    ({st with down_cross := upd st.down_cross sym (some data.close)},
     .ok (false, none))
  | .ok .upCross =>
    ({st with down_cross := upd st.down_cross sym none}, .ok (false, none))
  | .ok (.evalBuy false) => (st, .ok (false, none))
  | .ok (.evalBuy true) =>
    match aidx rsi 0 with
    | .error e => (st, .error e)
    | .ok r =>
      if oLT r (some 75) then
        match st.down_cross sym with
        | none => (st, .error .keyError)
        | some anchor => buyTail cfg st sym position data pv api morningRush anchor
      else
        ({st with cool_down := upd st.cool_down sym (some (truncMin now + 300))},
         .ok (false, none))

/-- `serie[-1] = v` positional assignment (raises on an empty series,
which the caller models separately). -/
def setLast (xs : List ℚ) (v : ℚ) : List ℚ := xs.take (xs.length - 1) ++ [v]

/-- `minute_history["close"][buy_time:].max()`: maximum close at or after
the buy timestamp; `none` is the NaN of an empty slice. -/
def maxSince (hist : List Bar) (t : ℕ) : Option ℚ :=
  ((hist.filter (fun b => t ≤ b.time)).map (·.close)).max?

/-- Lines 279-281: comparison precision 2 when the MACD value or its
signal value is `≥ 0.1` (a signed comparison, NaN compares false), else 3. -/
def round_factor (m s : Option ℚ) : ℕ :=
  if oLE (some (1 / 10)) m || oLE (some (1 / 10)) s then 2 else 3

/-- Lines 310-394: the prioritized exit chain, given the already-computed
condition ingredients. `r1res` is the suspended `rsi[-1]` access, forced
only when the first two conditions fail, as in the source. -/
def exitOrder (st1 : TDState) (sym : String) (position : ℤ)
    (close stopv target : ℚ) (m1 : Option ℚ) (r1res : Except PyErr (Option ℚ))
    (bailOut bailWhip scalp : Bool) (rsiLimit : ℚ) (now : ℕ) :
    TDState × Except PyErr RunRes :=
  if decide (close ≤ stopv) then
    (st1, .ok (true, some ⟨.sell, position, .market, none⟩))
  else if decide (close ≥ target) && oLE m1 (some 0) then
    (st1, .ok (true, some ⟨.sell, position, .market, none⟩))
  else
    match r1res with
    | .error e => (st1, .error e)
    | .ok r1 =>
      if oLE (some rsiLimit) r1 then
        ({st1 with cool_down := upd st1.cool_down sym (some (truncMin now + 300))},
         .ok (true, some ⟨.sell, position, .market, none⟩))
      else if bailOut then
        (st1, .ok (true, some ⟨.sell, position, .market, none⟩))
      else if scalp then
        let qty : ℤ := if position > 1 then position / 2 else 1
        (st1, .ok (true, some ⟨.sell, qty, .limit, some close⟩))
      else if bailWhip then
        (st1, .ok (true, some ⟨.sell, position, .limit, some close⟩))
      else (st1, .ok (false, none))

/-- Lines 249-394 of the sell side, after the whipsaw update produced
`st1`: the fine-mode indicators on the VWAP-substituted series, the
movement/threshold quantities, and the exit chain. -/
def sellCore (st1 : TDState) (sym : String) (position : ℤ)
    (hist : List Bar) (data : Bar) (now : ℕ) (morningRush : Bool) (cb : ℚ) :
    TDState × Except PyErr RunRes :=
  let serie := sessionCloses hist
    let serieRes : Except PyErr (List ℚ) :=
      if data.vwap ≠ 0 then
        if serie.isEmpty then .error .indexError else .ok (setLast serie data.vwap)
      else .ok serie
    match serieRes with
    | .error e => (st1, .error e)
    | .ok serie2 =>
      let macd := (macdCalc serie2).1
      let msig := (macdCalc serie2).2
      let rsi := rsiCalc 14 (sessionCloses hist)
      match st1.latest_scalp_basis sym with
      | none => (st1, .error .keyError)
      | some sb =>
        if sb = 0 then (st1, .error .zeroDiv)
        else
          let movement := (data.close - sb) / sb
          match st1.buy_time sym with
          | none => (st1, .error .keyError)
          | some bt =>
            let maxMov : Option ℚ := (maxSince hist bt).map (fun m => (m - sb) / sb)
            match aidx macd 0 with
            | .error e => (st1, .error e)
            | .ok m1 =>
              match aidx msig 0 with
              | .error e => (st1, .error e)
              | .ok s1 =>
                let rf := round_factor m1 s1
                match st1.target_prices sym with
                | none => (st1, .error .keyError)
                | some tp =>
                  let mbs := oLT (oRound rf m1) (oRound rf s1)
                  let g1 := (decide (sb > cb) ||
                    (oLT (some (1 / 50)) maxMov && oLT (some movement) maxMov)) && mbs
                  let g2 := ((st1.whipsawed sym).getD false) &&
                    decide (movement > 1 / 100) && mbs
                  -- lines 296-297 and 303-304 share the guarded `macd[-2]`
                  -- read: Python's `and` evaluates it only when the earlier
                  -- conjuncts hold, so the read (and its possible
                  -- IndexError) happens exactly when `g1 || g2`
                  let fallRes : Except PyErr Bool :=
                    if g1 || g2 then
                      match aidx macd 1 with
                      | .error e => .error e
                      | .ok m2 => .ok (oLT (oRound rf m1) (oRound rf m2))
                    else .ok false
                  match fallRes with
                  | .error e => (st1, .error e)
                  | .ok falling =>
                    let bailOut := g1 && falling
                    let bailWhip := g2 && falling
                    let scalp := decide (movement > 1 / 25) ||
                      decide (data.vwap > (tp + sb) / 2)
                    let rsiLimit : ℚ := if morningRush then 85 else 79
                    match st1.stop_prices sym with
                    | none => (st1, .error .keyError)
                    | some stopv =>
                      exitOrder st1 sym position data.close stopv tp m1
                        (aidx rsi 0) bailOut bailWhip scalp rsiLimit now

/-- The sell side of `run` (source lines 243-394) after its eligibility
guard: the whipsaw update (lines 243-247), then `sellCore`. -/
def sellEval (cfg : Config) (st : TDState) (sym : String) (position : ℤ)
    (hist : List Bar) (data : Bar) (now : ℕ) (morningRush : Bool) :
    TDState × Except PyErr RunRes :=
  match st.latest_cost_basis sym with
  | none => (st, .error .keyError)
  | some cb =>
    let st1 :=
      if !((st.whipsawed sym).getD false) && decide (data.close < cb * (99 / 100)) then
        {st with whipsawed := upd st.whipsawed sym (some true)}
      else st
    sellCore st1 sym position hist data now morningRush cb

/-- The sell-side eligibility guard (lines 236-242): its evaluation order
matters because `last_used_strategy[symbol]` is an unguarded read. -/
def sellGuard (st : TDState) (sym : String) (position : ℤ) (isSellTime : Bool) :
    Except PyErr Bool :=
  if isSellTime && decide (position > 0) && (st.latest_cost_basis sym).isSome then
    match st.last_used_strategy sym with
    | none => .error .keyError
    | some n => .ok (n == "momentum_long_v5" && !st.open_orders sym)
  else .ok false

/-- `MomentumLongV5.run`. The two trading-window capabilities are the
booleans `isBuyTime` / `isSellTime`; the gateway is `api`, an attempt-
indexed fetch outcome. The leading `iloc[-1]` / `iloc[-2]` reads raise on
a history of fewer than two rows. -/
def run (cfg : Config) (st : TDState) (sym : String) (position : ℤ)
    (hist : List Bar) (now : ℕ) (pv : Option ℚ)
    (api : Option (ℕ → Except FetchErr ℚ)) (isBuyTime isSellTime : Bool) :
    TDState × Except PyErr RunRes :=
  if hist.length < 2 then (st, .error .indexError)
  else
    let data := hist.getLastD ⟨0, 0, 0, 0, 0⟩
    -- `(now - config.market_open).seconds // 60 < 30`; modelled with
    -- truncated ℕ subtraction, which agrees whenever `now` is at or past
    -- the market open (a negative timedelta's `.seconds` wraps in Python)
    let morningRush := decide ((now - cfg.market_open) / 60 < 30)
    let g1st :=
      if isBuyTime && decide (position = 0) && !st.open_orders sym then
        let r := should_cool_down (st.cool_down sym) now
        (!r.1 && decide (data.volume > 500),
         {st with cool_down := upd st.cool_down sym r.2})
      else (false, st)
    if g1st.1 then
      buyEval cfg g1st.2 sym position
        (macdCalc (resample5 (sessionBars hist))).1
        (macdCalc (resample5 (sessionBars hist))).2
        (rsiCalc 14 (sessionCloses hist)) data now pv api morningRush
    else
      match sellGuard g1st.2 sym position isSellTime with
      | .error e => (g1st.2, .error e)
      | .ok true => sellEval cfg g1st.2 sym position hist data now morningRush
      | .ok false => (g1st.2, .ok (false, none))

/-- Fixture: the empty trading state. -/
def emptyState : TDState :=
  ⟨fun _ => none, fun _ => none, fun _ => none, fun _ => none, fun _ => none,
   fun _ => none, fun _ => none, fun _ => none, fun _ => false, fun _ => none⟩

/-- Fixture: risk fraction 1 % and a market open at the epoch. -/
def cfgEx : Config := ⟨1 / 100, 0⟩

/-- Fixture: a reversal anchor of 10 recorded for symbol `A`. -/
def stAnchor : TDState :=
  {emptyState with down_cross := upd emptyState.down_cross "A" (some 10)}

/-- Fixture: a strictly rising, still-negative 5-minute MACD tail. -/
def macdEx : List (Option ℚ) := [some (-3), some (-2), some (-1)]

/-- Fixture: a rising signal tail below the MACD tail. -/
def sigEx : List (Option ℚ) := [some (-10), some (-5)]

/-- Fixture: the current bar, close 5 (below the anchor of 10). -/
def barEx : Bar := ⟨600, 5, 1000, 5, 5⟩

/-- First-match evaluation of an ordered rule list: the spec's formulation
of the exit conditions ("the first one that matches wins and no
lower-priority condition is considered"). -/
def firstMatch {α : Type} : List (Bool × α) → α → α
  | [], d => d
  | (c, a) :: r, d => if c then a else firstMatch r d

/-- The comparison precision as the claim words it: 2 when either value is
at least 0.1 in absolute value, else 3. -/
def specRoundFactor (m s : ℚ) : ℕ := if 1 / 10 ≤ |m| ∨ 1 / 10 ≤ |s| then 2 else 3

/-- The trend-confirmation condition as the claim words it: three
consecutive non-decreasing oscillator readings with the latest above the
signal line, a rising signal line, the prior oscillator value above the
prior signal value, and the current close below the anchor. -/
def specTrendConfirmed (anchor m1 m2 m3 s1 s2 close : ℚ) : Prop :=
  m3 ≤ m2 ∧ m2 ≤ m1 ∧ s1 < m1 ∧ s2 < s1 ∧ s2 < m2 ∧ close < anchor

/-- Fixture: a 3-bar in-session history falling from 100 to 94. -/
def histShort : List Bar :=
  [⟨570, 100, 1000, 94, 95⟩, ⟨571, 96, 1000, 94, 95⟩, ⟨572, 94, 1000, 94, 95⟩]

/-- Fixture: a complete per-symbol exit context for symbol `A`: cost and
scalp basis 100, bought at minute 570, target 200, stop 95, owned by this
strategy. -/
def stExit : TDState :=
  {emptyState with
    latest_cost_basis := upd emptyState.latest_cost_basis "A" (some 100),
    latest_scalp_basis := upd emptyState.latest_scalp_basis "A" (some 100),
    last_used_strategy := upd emptyState.last_used_strategy "A" (some "momentum_long_v5"),
    buy_time := upd emptyState.buy_time "A" (some 570),
    target_prices := upd emptyState.target_prices "A" (some 200),
    stop_prices := upd emptyState.stop_prices "A" (some 95)}

/-- Fixture: a cooldown for symbol `A` expiring at 36420 s. -/
def stCool : TDState :=
  {emptyState with cool_down := upd emptyState.cool_down "A" (some 36420)}

/-- Fixture: a 3-bar entry-eligible history whose bars sit in three
distinct 5-minute buckets. -/
def histEntry : List Bar :=
  [⟨570, 10, 1000, 10, 10⟩, ⟨575, 11, 1000, 11, 11⟩, ⟨580, 12, 1000, 12, 12⟩]

/-- Fixture: the exit context with the scalp basis missing. -/
def stNoScalp : TDState := {stExit with latest_scalp_basis := fun _ => none}

theorem emaScan_length (a : ℚ) (e : ℚ) (l : List ℚ) :
    (emaScan a e l).length = l.length + 1 := by
  induction l generalizing e with
  | nil => rfl
  | cons x r ih => simp [emaScan, ih]

theorem ema_length (p : ℕ) (xs : List ℚ) : (ema p xs).length = xs.length := by
  unfold ema
  split
  · simp
  · rename_i h
    push_neg at h
    simp [emaScan_length]
    omega

theorem ema_none (p : ℕ) (xs : List ℚ) (i : ℕ) (hi : i < xs.length)
    (h : i < p - 1 ∨ xs.length < p) : (ema p xs)[i]? = some none := by
  unfold ema
  split
  · rw [List.getElem?_map]
    obtain ⟨v, hv⟩ : ∃ v, xs[i]? = some v := ⟨xs[i], List.getElem?_eq_getElem hi⟩
    rw [hv]
    rfl
  · rename_i hc
    push_neg at hc
    have hip : i < p - 1 := by omega
    rw [List.getElem?_append_left (by simpa using hip), List.getElem?_replicate]
    simp [hip]

theorem ema_isSome (p : ℕ) (xs : List ℚ) (i : ℕ) (hp : p ≠ 0)
    (h1 : p - 1 ≤ i) (hi : i < xs.length) : ∃ v, (ema p xs)[i]? = some (some v) := by
  unfold ema
  have hple : p ≤ xs.length := by omega
  rw [if_neg (by omega)]
  rw [List.getElem?_append_right (by simpa using h1)]
  simp only [List.length_replicate]
  have hj : i - (p - 1) < (emaScan (2 / (↑p + 1)) ((xs.take p).sum / ↑p) (xs.drop p)).length := by
    rw [emaScan_length]
    simp only [List.length_drop]
    omega
  rw [List.getElem?_map, List.getElem?_eq_getElem hj]
  exact ⟨_, rfl⟩

theorem macdLine_length (xs : List ℚ) : (macdLine xs).length = xs.length := by
  unfold macdLine
  rw [List.length_zipWith, ema_length, ema_length, min_self]

theorem macdLine_none (xs : List ℚ) (i : ℕ) (hi : i < xs.length) (h20 : i < 20) :
    (macdLine xs)[i]? = some none := by
  unfold macdLine
  rw [List.getElem?_zipWith']
  obtain ⟨v, hv⟩ : ∃ v, (ema 13 xs)[i]? = some v := by
    have : i < (ema 13 xs).length := by rw [ema_length]; exact hi
    exact ⟨_, List.getElem?_eq_getElem this⟩
  rw [hv, ema_none 21 xs i hi (by omega)]
  cases v <;> rfl

theorem macdLine_some (xs : List ℚ) (i : ℕ) (h20 : 20 ≤ i) (hi : i < xs.length) :
    ∃ v, (macdLine xs)[i]? = some (some v) := by
  unfold macdLine
  obtain ⟨a, ha⟩ := ema_isSome 13 xs i (by omega) (by omega) hi
  obtain ⟨b, hb⟩ := ema_isSome 21 xs i (by omega) (by omega) hi
  rw [List.getElem?_zipWith', ha, hb]
  exact ⟨a - b, rfl⟩

theorem filterMap_id_length (l : List (Option ℚ)) (h : ∀ x ∈ l, x.isSome) :
    (l.filterMap id).length = l.length := by
  induction l with
  | nil => rfl
  | cons x r ih =>
    cases x with
    | none => exact absurd (h none (by simp)) (by simp)
    | some v =>
      rw [List.filterMap_cons]
      simp only [id]
      rw [List.length_cons, List.length_cons, ih (fun y hy => h y (by simp [hy]))]

theorem macd_drop20_isSome (xs : List ℚ) :
    ∀ x ∈ (macdLine xs).drop 20, x.isSome := by
  intro x hx
  obtain ⟨n, hn⟩ := List.mem_iff_getElem?.mp hx
  rw [List.getElem?_drop] at hn
  obtain ⟨hlt, -⟩ := List.getElem?_eq_some.mp hn
  obtain ⟨v, hv⟩ := macdLine_some xs (20 + n) (by omega)
    (by rw [← macdLine_length xs]; exact hlt)
  rw [hn] at hv
  simp only [Option.some.injEq] at hv
  rw [hv]
  rfl

theorem sig_length (xs : List ℚ) : (macdCalc xs).2.length = xs.length := by
  show (signalCalc (macdLine xs)).length = xs.length
  unfold signalCalc
  split
  · rw [List.length_map, macdLine_length]
  · rename_i h
    push_neg at h
    rw [macdLine_length] at h
    rw [List.length_append, List.length_replicate, ema_length,
      filterMap_id_length _ (macd_drop20_isSome xs), List.length_drop,
      macdLine_length]
    omega

theorem sig_none (xs : List ℚ) (i : ℕ) (h28 : i < 28) (hi : i < xs.length) :
    (macdCalc xs).2[i]? = some none := by
  show (signalCalc (macdLine xs))[i]? = some none
  unfold signalCalc
  split
  · rw [List.getElem?_map]
    obtain ⟨v, hv⟩ : ∃ v, (macdLine xs)[i]? = some v := by
      have : i < (macdLine xs).length := by rw [macdLine_length]; exact hi
      exact ⟨_, List.getElem?_eq_getElem this⟩
    rw [hv]
    rfl
  · rename_i h
    push_neg at h
    rw [macdLine_length] at h
    by_cases h20 : i < 20
    · rw [List.getElem?_append_left (by simpa using h20), List.getElem?_replicate]
      simp [h20]
    · push_neg at h20
      rw [List.getElem?_append_right (by simpa using h20)]
      simp only [List.length_replicate]
      have hvl : (((macdLine xs).drop 20).filterMap id).length = xs.length - 20 := by
        rw [filterMap_id_length _ (macd_drop20_isSome xs), List.length_drop,
          macdLine_length]
      exact ema_none 9 _ (i - 20) (by omega) (by omega)

theorem resample5go_length (l : List Bar) : ∀ k c, (resample5go k c l).length ≤ l.length + 1 := by
  induction l with
  | nil => intro k c; simp [resample5go]
  | cons b r ih =>
    intro k c
    unfold resample5go
    split
    · exact le_trans (ih _ _) (by simp)
    · simpa using ih (b.time / 5) b.close

theorem resample5_length_le (l : List Bar) : (resample5 l).length ≤ l.length := by
  cases l with
  | nil => simp [resample5]
  | cons b r => simpa using resample5go_length r (b.time / 5) b.close

theorem diffs_length (xs : List ℚ) : (diffs xs).length = xs.length - 1 := by
  induction xs with
  | nil => rfl
  | cons x t ih =>
    cases t with
    | nil => rfl
    | cons y r =>
      show ((y - x) :: diffs (y :: r)).length = (x :: y :: r).length - 1
      rw [List.length_cons, ih]
      simp

theorem rsiScan_length (p ag al : ℚ) (l : List ℚ) :
    (rsiScan p ag al l).length = l.length := by
  induction l generalizing ag al with
  | nil => rfl
  | cons d r ih => simp [rsiScan, ih]

theorem rsiCalc_length (p : ℕ) (xs : List ℚ) : (rsiCalc p xs).length = xs.length := by
  unfold rsiCalc
  split
  · simp
  · rename_i h
    push_neg at h
    simp [rsiScan_length, diffs_length]
    omega

theorem setLast_length (xs : List ℚ) (v : ℚ) (h : xs ≠ []) :
    (setLast xs v).length = xs.length := by
  unfold setLast
  rw [List.length_append, List.length_take]
  have : 0 < xs.length := List.length_pos.mpr h
  simp
  omega

theorem aidx_lt {α : Type} (xs : List α) (i : ℕ) (h : i < xs.length) :
    aidx xs i = .ok (xs.get ⟨xs.length - 1 - i, by omega⟩) := by
  simp [aidx, h]

theorem aidx_eq_ok_iff {α : Type} (xs : List α) (i : ℕ) (v : α) :
    aidx xs i = .ok v ↔ i < xs.length ∧ xs[xs.length - 1 - i]? = some v := by
  unfold aidx
  split
  · rename_i h
    rw [List.getElem?_eq_getElem (by omega : xs.length - 1 - i < xs.length)]
    simp [List.get_eq_getElem, h]
  · rename_i h
    simp [h]

theorem crossDown_ok (anchor : Option ℚ) (macd : List (Option ℚ)) (m1 : Option ℚ)
    (h : 1 < macd.length) : ∃ b, crossDown anchor macd m1 = .ok b := by
  unfold crossDown
  split
  · rw [aidx_lt _ 1 h]
    exact ⟨_, rfl⟩
  · exact ⟨false, rfl⟩

theorem oLT_some_left {a : Option ℚ} {b : Option ℚ} (h : oLT a b = true) :
    ∃ x y, a = some x ∧ b = some y ∧ x < y := by
  cases a with
  | none => exact absurd h (by simp [oLT])
  | some x =>
    cases b with
    | none => exact absurd h (by simp [oLT])
    | some y => exact ⟨x, y, rfl, rfl, by simpa [oLT] using h⟩

theorem macd_fst (xs : List ℚ) : (macdCalc xs).1 = macdLine xs := rfl

theorem trendCond_short (anchor m1 : Option ℚ) (xs : List ℚ)
    (h2 : 2 ≤ xs.length) (h29 : xs.length ≤ 29) :
    trendCond anchor (macdCalc xs).1 (macdCalc xs).2 m1 = .ok false := by
  have hml : (macdCalc xs).1.length = xs.length := macdLine_length xs
  have hsl : (macdCalc xs).2.length = xs.length := sig_length xs
  unfold trendCond
  by_cases ha : truthyQ anchor = true
  swap
  · simp only [Bool.not_eq_true] at ha
    rw [ha]
    rfl
  rw [if_pos ha, aidx_lt _ 1 (by omega)]
  simp only []
  by_cases h21 : oLT ((macdCalc xs).1.get ⟨(macdCalc xs).1.length - 1 - 1, by omega⟩) m1 = true
  swap
  · simp only [Bool.not_eq_true] at h21
    rw [h21]
    rfl
  rw [if_pos h21]
  obtain ⟨v2, -, hv2, -, -⟩ := oLT_some_left h21
  -- the second-to-last MACD entry is a number, so at least 22 closes exist
  have hL22 : 22 ≤ xs.length := by
    by_contra hcon
    push_neg at hcon
    have hidx : (macdCalc xs).1.length - 1 - 1 < 20 := by omega
    have hnone := macdLine_none xs ((macdCalc xs).1.length - 1 - 1) (by omega) hidx
    rw [← macd_fst] at hnone
    rw [List.getElem?_eq_getElem (by omega : (macdCalc xs).1.length - 1 - 1 < (macdCalc xs).1.length)] at hnone
    simp only [Option.some.injEq] at hnone
    rw [List.get_eq_getElem, hnone] at hv2
    exact Option.noConfusion hv2
  rw [aidx_lt _ 2 (by omega)]
  simp only []
  split
  swap
  · rfl
  rw [aidx_lt _ 0 (by omega : 0 < (macdCalc xs).2.length)]
  simp only []
  by_cases hs1 : oLT ((macdCalc xs).2.get ⟨(macdCalc xs).2.length - 1 - 0, by omega⟩) m1 = true
  swap
  · simp only [Bool.not_eq_true] at hs1
    rw [hs1]
    rfl
  rw [if_pos hs1]
  obtain ⟨w1, -, hw1, -, -⟩ := oLT_some_left hs1
  -- a numeric signal entry forces exactly 29 closes
  have hL29 : xs.length = 29 := by
    by_contra hcon
    have hidx : (macdCalc xs).2.length - 1 - 0 < 28 := by omega
    have hnone := sig_none xs ((macdCalc xs).2.length - 1 - 0) hidx (by omega)
    rw [List.getElem?_eq_getElem (by omega : (macdCalc xs).2.length - 1 - 0 < (macdCalc xs).2.length)] at hnone
    simp only [Option.some.injEq] at hnone
    rw [List.get_eq_getElem, hnone] at hw1
    exact Option.noConfusion hw1
  rw [aidx_lt _ 1 (by omega)]
  simp only []
  -- the prior signal entry sits at index 27, inside the NaN warm-up
  have hnone := sig_none xs ((macdCalc xs).2.length - 1 - 1) (by omega) (by omega)
  rw [List.getElem?_eq_getElem (by omega : (macdCalc xs).2.length - 1 - 1 < (macdCalc xs).2.length)] at hnone
  simp only [Option.some.injEq] at hnone
  rw [List.get_eq_getElem, hnone]
  simp [oLT]

theorem trendSignal_bounded (anchor : Option ℚ) (xs : List ℚ) (close : ℚ)
    (h2 : 2 ≤ xs.length) (h29 : xs.length ≤ 29) :
    ∃ s, trendSignal anchor (macdCalc xs).1 (macdCalc xs).2 close = .ok s ∧
      s ≠ .evalBuy true := by
  have hml : (macdCalc xs).1.length = xs.length := macdLine_length xs
  unfold trendSignal
  rw [aidx_lt _ 0 (by omega : 0 < (macdCalc xs).1.length)]
  simp only []
  obtain ⟨b1, hb1⟩ := crossDown_ok anchor (macdCalc xs).1 _ (by omega)
  rw [hb1]
  simp only []
  by_cases hb : b1 = true
  · rw [hb]
    exact ⟨.downCross, by simp, by simp⟩
  · simp only [Bool.not_eq_true] at hb
    rw [hb]
    simp only [Bool.false_eq_true, if_false]
    split
    · exact ⟨.upCross, rfl, by simp⟩
    · rw [trendCond_short anchor _ xs h2 h29]
      simp only [Bool.false_eq_true, if_false]
      exact ⟨.evalBuy false, rfl, by simp⟩

theorem buyEval_no_buy (cfg : Config) (st : TDState) (sym : String) (position : ℤ)
    (macd msig rsi : List (Option ℚ)) (data : Bar) (now : ℕ) (pv : Option ℚ)
    (api : Option (ℕ → Except FetchErr ℚ)) (mr : Bool) (s : TrendStep)
    (hs : trendSignal (st.down_cross sym) macd msig data.close = .ok s)
    (hne : s ≠ .evalBuy true) :
    (buyEval cfg st sym position macd msig rsi data now pv api mr).2 =
      .ok (false, none) := by
  unfold buyEval
  rw [hs]
  cases s with
  | downCross => rfl
  | upCross => rfl
  | evalBuy b =>
    cases b with
    | false => rfl
    | true => exact absurd rfl hne

theorem buyEval_short (cfg : Config) (st1 : TDState) (sym : String) (position : ℤ)
    (xs : List ℚ) (rsi : List (Option ℚ)) (data : Bar) (now : ℕ) (pv : Option ℚ)
    (api : Option (ℕ → Except FetchErr ℚ)) (mr : Bool)
    (h2 : 2 ≤ xs.length) (h29 : xs.length ≤ 29) :
    (buyEval cfg st1 sym position (macdCalc xs).1 (macdCalc xs).2 rsi data now pv
      api mr).2 = .ok (false, none) := by
  obtain ⟨s, hs, hne⟩ := trendSignal_bounded (st1.down_cross sym) xs data.close h2 h29
  exact buyEval_no_buy cfg st1 sym position _ _ rsi data now pv api mr s hs hne

theorem buyEval_gate (cfg : Config) (st : TDState) (sym : String) (position : ℤ)
    (macd msig rsi : List (Option ℚ)) (data : Bar) (now : ℕ) (pv : Option ℚ)
    (api : Option (ℕ → Except FetchErr ℚ)) (mr : Bool) (a r : ℚ)
    (hts : trendSignal (st.down_cross sym) macd msig data.close = .ok (.evalBuy true))
    (ha : st.down_cross sym = some a)
    (hr : aidx rsi 0 = .ok (some r)) (h75 : r < 75) :
    buyEval cfg st sym position macd msig rsi data now pv api mr =
      buyTail cfg st sym position data pv api mr a := by
  unfold buyEval
  rw [hts, hr]
  simp only []
  rw [if_pos (by simp [oLT, h75] : oLT (some r) (some 75) = true), ha]

theorem buyTail_store (cfg : Config) (st : TDState) (sym : String) (position : ℤ)
    (data : Bar) (pv : Option ℚ) (api : Option (ℕ → Except FetchErr ℚ))
    (mr : Bool) (a : ℚ) :
    (buyTail cfg st sym position data pv api mr a).1.target_prices sym =
      some (a * (112 / 100)) ∧
    (buyTail cfg st sym position data pv api mr a).1.stop_prices sym =
      some (data.close * (96 / 100)) := by
  unfold buyTail
  cases hpv : pvResolve pv api with
  | error e => simp [upd]
  | ok ov =>
    cases ov with
    | none => simp [upd]
    | some v =>
      simp only []
      split
      · simp [upd]
      · split
        · split <;> simp [upd]
        · simp [upd]

theorem buyTail_sizing (cfg : Config) (st : TDState) (sym : String) (position : ℤ)
    (data : Bar) (v : ℚ) (api : Option (ℕ → Except FetchErr ℚ)) (mr : Bool)
    (a : ℚ) (hc : data.close ≠ 0) :
    (sharesCalc v cfg.risk data.close (data.close * (96 / 100)) - position ≤ 0 →
      (buyTail cfg st sym position data (some v) api mr a).2 = .ok (false, none)) ∧
    (0 < sharesCalc v cfg.risk data.close (data.close * (96 / 100)) - position →
      ∃ o : OrderIntent,
        (buyTail cfg st sym position data (some v) api mr a).2 = .ok (true, some o) ∧
        o.side = .buy ∧
        o.qty = sharesCalc v cfg.risk data.close (data.close * (96 / 100)) - position) := by
  have hden : data.close - data.close * (96 / 100) ≠ 0 := by
    have hrw : data.close - data.close * (96 / 100) = data.close * (1 / 25) := by ring
    rw [hrw]
    exact mul_ne_zero hc (by norm_num)
  unfold buyTail
  simp only [pvResolve]
  have hread : (upd st.stop_prices sym (some (data.close * (96 / 100))) sym).getD 0 =
      data.close * (96 / 100) := by simp [upd]
  constructor
  · intro hle
    rw [if_neg (by simpa [upd] using hden)]
    simp only [upd, eq_self_iff_true, if_true, Option.getD_some]
    rw [if_neg (by omega)]
  · intro hpos
    rw [if_neg (by simpa [upd] using hden)]
    simp only [upd, eq_self_iff_true, if_true, Option.getD_some]
    rw [if_pos hpos]
    cases mr with
    | true =>
      exact ⟨⟨.buy, sharesCalc v cfg.risk data.close (data.close * (96 / 100)) - position,
        .market, none⟩, rfl, rfl, rfl⟩
    | false =>
      exact ⟨⟨.buy, sharesCalc v cfg.risk data.close (data.close * (96 / 100)) - position,
        .limit, some (max data.close data.vwap)⟩, rfl, rfl, rfl⟩

theorem fetchPV_congr (f g : ℕ → Except FetchErr ℚ) :
    ∀ r i, (∀ j, i ≤ j → j < i + r → f j = g j) → fetchPV f r i = fetchPV g r i := by
  intro r
  induction r with
  | zero => intro i _; rfl
  | succ n ih =>
    intro i h
    have h0 : f i = g i := h i (by omega) (by omega)
    simp only [fetchPV, h0]
    cases g i with
    | ok v => rfl
    | error e =>
      cases e with
      | conn => exact ih (i + 1) (fun j hj1 hj2 => h j (by omega) (by omega))
      | other => rfl

theorem fetchPV_exhaust (f : ℕ → Except FetchErr ℚ) :
    ∀ r i, (∀ j, i ≤ j → j < i + r → f j = .error .conn) → fetchPV f r i = .ok none := by
  intro r
  induction r with
  | zero => intro i _; rfl
  | succ n ih =>
    intro i h
    simp only [fetchPV, h i (by omega) (by omega)]
    exact ih (i + 1) (fun j hj1 hj2 => h j (by omega) (by omega))

theorem fetchPV_other (f : ℕ → Except FetchErr ℚ) (r i : ℕ)
    (h : f i = .error .other) : fetchPV f (r + 1) i = .error .apiError := by
  simp only [fetchPV, h]

/-- C5: during a confirmed-trend buy attempt (the trend step fired, the
anchor is recorded, and the latest 14-period RSI reading is a number), a
reading of at least 75 yields no action and sets the symbol's cooldown to
exactly 5 minutes after the current timestamp truncated to the minute,
while a reading below 75 lets the buy attempt proceed — observable through
the new target and stop prices it persists. -/
theorem claim_C5_risk_gate (cfg : Config) (st : TDState) (sym : String) (position : ℤ)
    (macd msig rsi : List (Option ℚ)) (data : Bar) (now : ℕ) (pv : Option ℚ)
    (api : Option (ℕ → Except FetchErr ℚ)) (mr : Bool) (a r : ℚ)
    (hts : trendSignal (st.down_cross sym) macd msig data.close = .ok (.evalBuy true))
    (ha : st.down_cross sym = some a)
    (hr : aidx rsi 0 = .ok (some r)) :
    (75 ≤ r →
      (buyEval cfg st sym position macd msig rsi data now pv api mr).2 =
        .ok (false, none) ∧
      (buyEval cfg st sym position macd msig rsi data now pv api mr).1.cool_down sym =
        some (truncMin now + 300)) ∧
    (r < 75 →
      (buyEval cfg st sym position macd msig rsi data now pv api mr).1.target_prices sym =
        some (a * (112 / 100)) ∧
      (buyEval cfg st sym position macd msig rsi data now pv api mr).1.stop_prices sym =
        some (data.close * (96 / 100))) := by
  constructor
  · intro h75
    have hf : oLT (some r) (some 75) = false := by
      simp [oLT]
      exact h75
    unfold buyEval
    rw [hts, hr]
    simp only []
    rw [if_neg (by rw [hf]; exact Bool.false_ne_true)]
    exact ⟨rfl, by simp [upd]⟩
  · intro h75
    rw [buyEval_gate cfg st sym position macd msig rsi data now pv api mr a r hts ha hr h75]
    exact buyTail_store cfg st sym position data pv api mr a

/-- C5 witness: anchor 10, RSI 80 at timestamp 36125 s; the buy aborts and
the cooldown lands on 36420 s = trunc(36125) + 300. -/
theorem claim_C5_risk_gate_witness :
    (buyEval cfgEx stAnchor "A" 0 macdEx sigEx [some 80] barEx 36125 (some 100000)
        none false).2 = .ok (false, none) ∧
    (buyEval cfgEx stAnchor "A" 0 macdEx sigEx [some 80] barEx 36125 (some 100000)
        none false).1.cool_down "A" = some 36420 :=
  (claim_C5_risk_gate cfgEx stAnchor "A" 0 macdEx sigEx [some 80] barEx 36125
    (some 100000) none false 10 80 rfl rfl rfl).1 (by norm_num)

/-- C4: with the risk gate passed and a caller-supplied portfolio value,
the emitted quantity is `sharesCalc` (the floor division, raised to 1 when
it is 0) minus the held position; a non-positive net quantity yields no
action; the concrete sizing instance gives 500 shares; and a zero floor is
raised to exactly 1. -/
theorem claim_C4_sizing (cfg : Config) (st : TDState) (sym : String) (position : ℤ)
    (macd msig rsi : List (Option ℚ)) (data : Bar) (now : ℕ) (v : ℚ)
    (api : Option (ℕ → Except FetchErr ℚ)) (mr : Bool) (a r : ℚ)
    (hts : trendSignal (st.down_cross sym) macd msig data.close = .ok (.evalBuy true))
    (ha : st.down_cross sym = some a)
    (hr : aidx rsi 0 = .ok (some r)) (h75 : r < 75) (hc : data.close ≠ 0) :
    (sharesCalc v cfg.risk data.close (data.close * (96 / 100)) - position ≤ 0 →
      (buyEval cfg st sym position macd msig rsi data now (some v) api mr).2 =
        .ok (false, none)) ∧
    (0 < sharesCalc v cfg.risk data.close (data.close * (96 / 100)) - position →
      ∃ o : OrderIntent,
        (buyEval cfg st sym position macd msig rsi data now (some v) api mr).2 =
          .ok (true, some o) ∧ o.side = .buy ∧
        o.qty = sharesCalc v cfg.risk data.close (data.close * (96 / 100)) - position) ∧
    sharesCalc 100000 (1 / 100) 50 48 = 500 ∧
    (∀ pv2 r2 c2 s2 : ℚ, ⌊pv2 * r2 / (c2 - s2)⌋ = 0 → sharesCalc pv2 r2 c2 s2 = 1) := by
  rw [buyEval_gate cfg st sym position macd msig rsi data now (some v) api mr a r hts ha hr h75]
  refine ⟨(buyTail_sizing cfg st sym position data v api mr a hc).1,
    (buyTail_sizing cfg st sym position data v api mr a hc).2, by norm_num [sharesCalc], ?_⟩
  intro pv2 r2 c2 s2 h0
  unfold sharesCalc
  rw [h0]
  rfl

/-- C4 witness: portfolio value 100000, risk 1 %, close 50, stop 48 give
exactly 500 shares. -/
theorem claim_C4_sizing_witness : sharesCalc 100000 (1 / 100) 50 48 = 500 :=
  (claim_C4_sizing cfgEx stAnchor "A" 0 macdEx sigEx [some 50] barEx 36000 100000
    none false 10 50 rfl rfl rfl (by norm_num) (by norm_num [barEx])).2.2.1

/-- C10 (implicit): once the evaluation passes the risk gate, the new stop
price (close × 0.96) and target price (anchor × 1.12) are already in the
per-symbol store, so an abort of the same evaluation — the fatal
configuration error or a no-action return from exhausted retries or
non-positive net shares — leaves the store overwritten with them, with no
restore of the previous values. -/
theorem claim_C10_abort_store (cfg : Config) (st : TDState) (sym : String)
    (position : ℤ) (macd msig rsi : List (Option ℚ)) (data : Bar) (now : ℕ)
    (pv : Option ℚ) (api : Option (ℕ → Except FetchErr ℚ)) (mr : Bool) (a r : ℚ)
    (hts : trendSignal (st.down_cross sym) macd msig data.close = .ok (.evalBuy true))
    (ha : st.down_cross sym = some a)
    (hr : aidx rsi 0 = .ok (some r)) (h75 : r < 75)
    (habort : (buyEval cfg st sym position macd msig rsi data now pv api mr).2 =
        .error .configError ∨
      (buyEval cfg st sym position macd msig rsi data now pv api mr).2 =
        .ok (false, none)) :
    (buyEval cfg st sym position macd msig rsi data now pv api mr).1.target_prices sym =
      some (a * (112 / 100)) ∧
    (buyEval cfg st sym position macd msig rsi data now pv api mr).1.stop_prices sym =
      some (data.close * (96 / 100)) := by
  rw [buyEval_gate cfg st sym position macd msig rsi data now pv api mr a r hts ha hr h75]
  exact buyTail_store cfg st sym position data pv api mr a

/-- C10 witness: aborting on the configuration error (no portfolio value,
no gateway) leaves target 10 × 1.12 and stop 5 × 0.96 in the store. -/
theorem claim_C10_abort_store_witness :
    (buyEval cfgEx stAnchor "A" 0 macdEx sigEx [some 50] barEx 36000 none none
        false).1.target_prices "A" = some (10 * (112 / 100)) ∧
    (buyEval cfgEx stAnchor "A" 0 macdEx sigEx [some 50] barEx 36000 none none
        false).1.stop_prices "A" = some ((5 : ℚ) * (96 / 100)) :=
  claim_C10_abort_store cfgEx stAnchor "A" 0 macdEx sigEx [some 50] barEx 36000
    none none false 10 50 rfl rfl rfl (by norm_num) (Or.inl rfl)

/-- C8: portfolio-value retrieval touches at most the first 3 gateway
attempts; a non-connectivity failure is not retried; three connectivity
failures make the buy evaluation return no action rather than raise; and
having neither a supplied value nor a gateway raises the fatal
configuration error. -/
theorem claim_C8_bounded_retry (cfg : Config) (st : TDState) (sym : String)
    (position : ℤ) (macd msig rsi : List (Option ℚ)) (data : Bar) (now : ℕ)
    (mr : Bool) (a r : ℚ)
    (hts : trendSignal (st.down_cross sym) macd msig data.close = .ok (.evalBuy true))
    (ha : st.down_cross sym = some a)
    (hr : aidx rsi 0 = .ok (some r)) (h75 : r < 75) :
    (∀ f g : ℕ → Except FetchErr ℚ, (∀ j, j < 3 → f j = g j) →
      fetchPV f 3 0 = fetchPV g 3 0) ∧
    (∀ f : ℕ → Except FetchErr ℚ, f 0 = .error .other →
      fetchPV f 3 0 = .error .apiError) ∧
    (∀ f : ℕ → Except FetchErr ℚ, (∀ j, j < 3 → f j = .error .conn) →
      (buyEval cfg st sym position macd msig rsi data now none (some f) mr).2 =
        .ok (false, none)) ∧
    (buyEval cfg st sym position macd msig rsi data now none none mr).2 =
      .error .configError := by
  refine ⟨?_, ?_, ?_, ?_⟩
  · intro f g h
    exact fetchPV_congr f g 3 0 (fun j _ hj2 => h j (by omega))
  · intro f hf
    show fetchPV f (2 + 1) 0 = .error .apiError
    exact fetchPV_other f 2 0 hf
  · intro f hf
    rw [buyEval_gate cfg st sym position macd msig rsi data now none (some f) mr a r
      hts ha hr h75]
    have h3 : fetchPV f 3 0 = .ok none :=
      fetchPV_exhaust f 3 0 (fun j _ hj2 => hf j (by omega))
    unfold buyTail
    simp only [pvResolve, h3]
  · rw [buyEval_gate cfg st sym position macd msig rsi data now none none mr a r
      hts ha hr h75]
    rfl

/-- C8 witness: with the gate passed concretely and no gateway, the
configuration error is raised. -/
theorem claim_C8_bounded_retry_witness :
    (buyEval cfgEx stAnchor "A" 0 macdEx sigEx [some 50] barEx 36000 none none
        false).2 = .error .configError :=
  (claim_C8_bounded_retry cfgEx stAnchor "A" 0 macdEx sigEx [some 50] barEx 36000
    false 10 50 rfl rfl rfl (by norm_num)).2.2.2

/-- C1: the six sell conditions are evaluated in the fixed priority order
stop-hit, target-hit-with-weakening-momentum, overbought, bail-out,
scale-out, whipsaw-bail — the exit chain equals first-match evaluation of
that ordered rule list — and on every bar where the stop condition
(close ≤ stop) and the scale-out condition (movement > 0.04 or
VWAP > scalp threshold) hold together, the result is the market sell of
the entire position, never the partial scale-out. -/
theorem claim_C1_exit_priority (st1 : TDState) (sym : String) (position : ℤ)
    (close stopv target movement scalpThr vwap : ℚ) (m1 r1 : Option ℚ)
    (bailOut bailWhip : Bool) (rsiLimit : ℚ) (now : ℕ) :
    (exitOrder st1 sym position close stopv target m1 (.ok r1) bailOut bailWhip
        (decide (movement > 1 / 25) || decide (vwap > scalpThr)) rsiLimit now =
      firstMatch
        [(decide (close ≤ stopv),
          (st1, .ok (true, some ⟨.sell, position, .market, none⟩))),
         (decide (close ≥ target) && oLE m1 (some 0),
          (st1, .ok (true, some ⟨.sell, position, .market, none⟩))),
         (oLE (some rsiLimit) r1,
          ({st1 with cool_down := upd st1.cool_down sym (some (truncMin now + 300))},
           .ok (true, some ⟨.sell, position, .market, none⟩))),
         (bailOut, (st1, .ok (true, some ⟨.sell, position, .market, none⟩))),
         (decide (movement > 1 / 25) || decide (vwap > scalpThr),
          (st1, .ok (true, some ⟨.sell, (if position > 1 then position / 2 else 1 : ℤ),
            .limit, some close⟩))),
         (bailWhip,
          (st1, .ok (true, some ⟨.sell, position, .limit, some close⟩)))]
        (st1, .ok (false, none))) ∧
    (close ≤ stopv → movement > 1 / 25 ∨ vwap > scalpThr →
      exitOrder st1 sym position close stopv target m1 (.ok r1) bailOut bailWhip
          (decide (movement > 1 / 25) || decide (vwap > scalpThr)) rsiLimit now =
        (st1, .ok (true, some ⟨.sell, position, .market, none⟩))) := by
  constructor
  · rfl
  · intro h1 _
    unfold exitOrder
    rw [if_pos (by simpa using h1)]

theorem sellGuard_zero (st : TDState) (sym : String) (ist : Bool) :
    sellGuard st sym 0 ist = .ok false := by
  unfold sellGuard
  simp

/-- C6: the cooldown check is one-shot. When `cool_down[symbol]` is set
and at or past the truncated current minute, the entry evaluation returns
no action and leaves the field unchanged; otherwise (unset or in the past)
the check clears the field and reports no suppression, and a repeated
check with the same `now` on the cleared field is again unsuppressed. -/
theorem claim_C6_cooldown (cfg : Config) (st : TDState) (sym : String)
    (hist : List Bar) (now : ℕ) (pv : Option ℚ)
    (api : Option (ℕ → Except FetchErr ℚ)) (ist : Bool) (t : ℕ)
    (h2 : 2 ≤ hist.length) (hoo : st.open_orders sym = false) :
    (st.cool_down sym = some t → truncMin now ≤ t →
      (run cfg st sym 0 hist now pv api true ist).2 = .ok (false, none) ∧
      (run cfg st sym 0 hist now pv api true ist).1.cool_down sym = some t) ∧
    ((st.cool_down sym = none ∨ (st.cool_down sym = some t ∧ t < truncMin now)) →
      should_cool_down (st.cool_down sym) now = (false, none) ∧
      should_cool_down none now = (false, none)) := by
  constructor
  · intro hcd hle
    have hsc : should_cool_down (st.cool_down sym) now = (true, some t) := by
      rw [hcd]
      simp [should_cool_down, hle]
    constructor
    · simp [run, show ¬hist.length < 2 from by omega, hoo, hsc, sellGuard_zero]
    · simp [run, show ¬hist.length < 2 from by omega, hoo, hsc, sellGuard_zero, upd]
  · intro hor
    refine ⟨?_, rfl⟩
    rcases hor with h | ⟨h, hlt⟩
    · rw [h]
      rfl
    · rw [h]
      simp [should_cool_down, show ¬truncMin now ≤ t from by omega]

/-- C9 counterexample: at MACD value −1 and signal value −2 the code picks
precision 3 — line 280 compares `>= 0.1` without taking magnitudes — while
the claim's magnitude rule demands precision 2. -/
theorem claim_C9_counterexample :
    round_factor (some (-1)) (some (-2)) = 3 ∧ specRoundFactor (-1) (-2) = 2 := by
  constructor
  · norm_num [round_factor, oLE]
  · norm_num [specRoundFactor]

/-- C9 (amended): the exit engine's comparison precision is 2 exactly when
the MACD value or its signal value is ≥ 0.1 as a signed comparison — no
absolute value is taken — and 3 otherwise; and `macd_below_signal` holds
exactly when the MACD value rounded at that precision is strictly less
than the signal value rounded at the same precision. -/
theorem claim_C9_round_factor (m s : ℚ) :
    round_factor (some m) (some s) = (if 1 / 10 ≤ m ∨ 1 / 10 ≤ s then 2 else 3) ∧
    ∀ f : ℕ, (oLT (oRound f (some m)) (oRound f (some s)) = true ↔
      pyRound f m < pyRound f s) := by
  constructor
  · unfold round_factor
    by_cases h1 : 1 / 10 ≤ m <;> by_cases h2 : 1 / 10 ≤ s <;> simp [oLE, h1, h2]
  · intro f
    simp [oLT, oRound]

/-- C2 counterexample: with the anchor at 10, oscillator tail 0, 1/2, 1,
signal tail 1/8, 1/4 and close 5, every condition of the claim holds, yet
the engine does not proceed to the risk gate: because the latest
oscillator value is ≥ 0 the code's upward-crossing branch fires first and
clears the anchor with no action. -/
theorem claim_C2_counterexample :
    specTrendConfirmed 10 1 (1 / 2) 0 (1 / 4) (1 / 8) 5 ∧
    trendSignal (some 10) [some 0, some (1 / 2), some 1] [some (1 / 8), some (1 / 4)] 5 =
      .ok .upCross := by
  constructor
  · norm_num [specTrendConfirmed]
  · rfl

/-- C2 (amended): with a (truthy) reversal anchor set, the entry engine
proceeds to the risk gate exactly when the latest oscillator value is
still negative (otherwise the upward-crossing branch clears the anchor
first), the last three oscillator readings are strictly increasing, the
latest exceeds its signal value, the signal value rose strictly, the prior
oscillator value exceeds the prior signal value, and the current close is
below the anchor price. -/
theorem claim_C2_trend_gate (a close : ℚ) (macd msig : List (Option ℚ))
    (ha : a ≠ 0) :
    trendSignal (some a) macd msig close = .ok (.evalBuy true) ↔
      ∃ m1 m2 m3 s1 s2 : ℚ,
        aidx macd 0 = .ok (some m1) ∧ aidx macd 1 = .ok (some m2) ∧
        aidx macd 2 = .ok (some m3) ∧ aidx msig 0 = .ok (some s1) ∧
        aidx msig 1 = .ok (some s2) ∧
        m1 < 0 ∧ m2 < m1 ∧ m3 < m2 ∧ s1 < m1 ∧ s2 < s1 ∧ s2 < m2 ∧ close < a := by
  have htr : truthyQ (some a) = true := by simp [truthyQ, ha]
  constructor
  · intro h
    unfold trendSignal at h
    cases ha0 : aidx macd 0 with
    | error e => rw [ha0] at h; exact absurd h (by simp)
    | ok m1o =>
      rw [ha0] at h
      simp only [] at h
      cases hcd : crossDown (some a) macd m1o with
      | error e => rw [hcd] at h; exact absurd h (by simp)
      | ok b1 =>
        rw [hcd] at h
        simp only [] at h
        by_cases hb1 : b1 = true
        · rw [hb1] at h
          simp at h
        · rw [Bool.not_eq_true] at hb1
          rw [hb1] at h
          simp only [Bool.false_eq_true, if_false] at h
          by_cases hup : (truthyQ (some a) && oLE (some 0) m1o) = true
          · rw [if_pos hup] at h
            simp at h
          · rw [if_neg hup] at h
            cases htc : trendCond (some a) macd msig m1o with
            | error e => rw [htc] at h; exact absurd h (by simp)
            | ok c =>
              rw [htc] at h
              simp only [] at h
              by_cases hc : c = true
              swap
              · rw [Bool.not_eq_true] at hc
                rw [hc] at h
                simp at h
              rw [hc, if_pos rfl] at h
              simp only [Except.ok.injEq, TrendStep.evalBuy.injEq] at h
              have hca : close < a := of_decide_eq_true h
              unfold trendCond at htc
              rw [if_pos htr] at htc
              cases hm2 : aidx macd 1 with
              | error e => rw [hm2] at htc; exact absurd htc (by simp)
              | ok m2o =>
                rw [hm2] at htc
                simp only [] at htc
                by_cases h21 : oLT m2o m1o = true
                swap
                · rw [if_neg h21] at htc
                  rw [hc] at htc
                  exact absurd htc (by simp)
                rw [if_pos h21] at htc
                cases hm3 : aidx macd 2 with
                | error e => rw [hm3] at htc; exact absurd htc (by simp)
                | ok m3o =>
                  rw [hm3] at htc
                  simp only [] at htc
                  by_cases h32 : oLT m3o m2o = true
                  swap
                  · rw [if_neg h32] at htc
                    rw [hc] at htc
                    exact absurd htc (by simp)
                  rw [if_pos h32] at htc
                  cases hs1 : aidx msig 0 with
                  | error e => rw [hs1] at htc; exact absurd htc (by simp)
                  | ok s1o =>
                    rw [hs1] at htc
                    simp only [] at htc
                    by_cases hs1m : oLT s1o m1o = true
                    swap
                    · rw [if_neg hs1m] at htc
                      rw [hc] at htc
                      exact absurd htc (by simp)
                    rw [if_pos hs1m] at htc
                    cases hs2 : aidx msig 1 with
                    | error e => rw [hs2] at htc; exact absurd htc (by simp)
                    | ok s2o =>
                      rw [hs2, hc] at htc
                      simp only [Except.ok.injEq] at htc
                      rw [Bool.and_eq_true] at htc
                      obtain ⟨h1, h2⟩ := htc
                      obtain ⟨m2v, m1v, hm2v, hm1v, h21v⟩ := oLT_some_left h21
                      obtain ⟨m3v, y2, hm3v, hy2, h32v⟩ := oLT_some_left h32
                      obtain ⟨s1v, y1, hs1v, hy1, hs1mv⟩ := oLT_some_left hs1m
                      obtain ⟨s2v, y3, hs2v, hy3, hs21v⟩ := oLT_some_left h1
                      obtain ⟨z2, y4, hz2, hy4, hs2m2v⟩ := oLT_some_left h2
                      rw [hm2v] at hy2
                      rw [hm1v] at hy1
                      rw [hs1v] at hy3
                      rw [hm2v] at hy4
                      rw [hs2v] at hz2
                      injection hy2 with hy2
                      injection hy1 with hy1
                      injection hy3 with hy3
                      injection hy4 with hy4
                      injection hz2 with hz2
                      subst hy2
                      subst hy1
                      subst hy3
                      subst hy4
                      subst hz2
                      rw [hm1v] at hup
                      simp only [htr, Bool.true_and, oLE,
                        decide_eq_true_eq] at hup
                      exact ⟨m1v, m2v, m3v, s1v, s2v, by rw [hm1v], by rw [hm2v],
                        by rw [hm3v], by rw [hs1v], by rw [hs2v],
                        not_le.mp hup, h21v, h32v, hs1mv, hs21v, hs2m2v, hca⟩
  · rintro ⟨m1, m2, m3, s1, s2, hm1, hm2, hm3, hs1, hs2, h10, h21, h32, hs1m,
      hs21, hs2m2, hca⟩
    have hcd : crossDown (some a) macd (some m1) = .ok false := by
      unfold crossDown
      rw [if_pos (show oLT (some m1) (some 0) = true by
        simp only [oLT, decide_eq_true_eq]; exact h10), hm2]
      simp [htr]
    have htc : trendCond (some a) macd msig (some m1) = .ok true := by
      unfold trendCond
      rw [if_pos htr, hm2]
      simp only []
      rw [if_pos (show oLT (some m2) (some m1) = true by
        simp only [oLT, decide_eq_true_eq]; exact h21), hm3]
      simp only []
      rw [if_pos (show oLT (some m3) (some m2) = true by
        simp only [oLT, decide_eq_true_eq]; exact h32), hs1]
      simp only []
      rw [if_pos (show oLT (some s1) (some m1) = true by
        simp only [oLT, decide_eq_true_eq]; exact hs1m), hs2]
      simp only [oLT, Except.ok.injEq]
      rw [Bool.and_eq_true]
      exact ⟨decide_eq_true hs21, decide_eq_true hs2m2⟩
    unfold trendSignal
    rw [hm1]
    simp only []
    rw [hcd]
    simp only [Bool.false_eq_true, if_false]
    rw [if_neg (show ¬(truthyQ (some a) && oLE (some 0) (some m1)) = true by
      simp only [htr, Bool.true_and, oLE, decide_eq_true_eq]
      exact not_le.mpr h10)]
    rw [htc]
    simp only [if_pos rfl]
    simp [hca]

/-- C2 witness: anchor 10, oscillator tail −3 < −2 < −1 < 0, signal tail
−10 < −5 below it, close 5 < 10: the gate opens. -/
theorem claim_C2_trend_gate_witness :
    trendSignal (some 10) macdEx sigEx 5 = .ok (.evalBuy true) :=
  (claim_C2_trend_gate 10 5 macdEx sigEx (by norm_num)).mpr
    ⟨-1, -2, -3, -5, -10, rfl, rfl, rfl, rfl, rfl, by norm_num, by norm_num,
     by norm_num, by norm_num, by norm_num, by norm_num, by norm_num⟩

/-- C3 counterexample: on a 3-bar history — far below the 30-bar minimum
look-back — the exit evaluation is not gated on indicator validity: the
close 94 is at or below the stored stop 95, so the stop-hit rule fires and
a full market sell of the 2-share position is emitted instead of the
claimed no-action. -/
theorem claim_C3_counterexample :
    histShort.length < 30 ∧
    (run cfgEx stExit "A" 2 histShort 36000 none none false true).2 =
      .ok (true, some ⟨.sell, 2, .market, none⟩) := by
  constructor
  · decide
  · norm_num [run, cfgEx, stExit, emptyState, upd, histShort, sellGuard, sellEval,
      sellCore, exitOrder, sessionCloses, sessionBars, inSession, setLast, maxSince,
      aidx, oLT, oLE, round_factor, oRound, truthyQ, Bool.and_false, macdCalc,
      macdLine, signalCalc, ema, emaScan, rsiCalc, diffs, rsiScan]

/-- C3 (amended): on any history of fewer than 30 bars (the 21-period slow
EMA plus the 9-period signal smoothing) but with at least the 2 rows the
leading `iloc` reads index and at least 2 resampled 5-minute buckets, the
ENTRY evaluation returns no action: the coarse signal line is still in its
NaN warm-up, so the trend confirmation cannot fire, and the two
zero-crossing branches return no action by construction. The exit side is
not so gated (see the counterexample). -/
theorem claim_C3_short_history (cfg : Config) (st : TDState) (sym : String)
    (hist : List Bar) (now : ℕ) (pv : Option ℚ)
    (api : Option (ℕ → Except FetchErr ℚ)) (ibt ist : Bool)
    (h2 : 2 ≤ hist.length) (h30 : hist.length < 30)
    (hr5 : 2 ≤ (resample5 (sessionBars hist)).length) :
    (run cfg st sym 0 hist now pv api ibt ist).2 = .ok (false, none) := by
  have hx29 : (resample5 (sessionBars hist)).length ≤ 29 := by
    calc (resample5 (sessionBars hist)).length
        ≤ (sessionBars hist).length := resample5_length_le _
      _ ≤ hist.length := List.length_filter_le _ _
      _ ≤ 29 := by omega
  unfold run
  rw [if_neg (by omega)]
  simp only []
  split
  · simp only []
    split
    · exact buyEval_short cfg _ sym 0 (resample5 (sessionBars hist)) _ _ now pv api _
        hr5 hx29
    · rw [sellGuard_zero]
  · rw [if_neg (by simp)]
    rw [sellGuard_zero]

theorem claim_C3_short_history_witness :
    (run cfgEx emptyState "A" 0 histEntry 36000 none none true true).2 =
      .ok (false, none) :=
  claim_C3_short_history cfgEx emptyState "A" histEntry 36000 none none true true
    (by decide) (by decide) (by decide)

theorem exitOrder_ok (st1 : TDState) (sym : String) (position : ℤ)
    (close stopv target : ℚ) (m1 r1 : Option ℚ) (bailOut bailWhip scalp : Bool)
    (rsiLimit : ℚ) (now : ℕ) :
    ∃ b o, (exitOrder st1 sym position close stopv target m1 (.ok r1) bailOut
      bailWhip scalp rsiLimit now).2 = .ok (b, o) := by
  unfold exitOrder
  split
  · exact ⟨_, _, rfl⟩
  · split
    · exact ⟨_, _, rfl⟩
    · simp only []
      split
      · exact ⟨_, _, rfl⟩
      · split
        · exact ⟨_, _, rfl⟩
        · split
          · exact ⟨_, _, rfl⟩
          · split
            · exact ⟨_, _, rfl⟩
            · exact ⟨_, _, rfl⟩

theorem oRound_some {f : ℕ} {a : Option ℚ} {x : ℚ} (h : oRound f a = some x) :
    ∃ q, a = some q := by
  cases a with
  | none => exact absurd h (by simp [oRound])
  | some q => exact ⟨q, rfl⟩

theorem macd_get_some_idx (xs : List ℚ) (q : ℚ) (i : ℕ)
    (hlt : i < (macdCalc xs).1.length)
    (h : (macdCalc xs).1.get ⟨i, hlt⟩ = some q) : 20 ≤ i := by
  by_contra hc
  push_neg at hc
  have hxl : (macdCalc xs).1.length = xs.length := macdLine_length xs
  have hn := macdLine_none xs i (by omega) hc
  rw [← macd_fst] at hn
  rw [List.getElem?_eq_getElem hlt] at hn
  simp only [Option.some.injEq] at hn
  rw [List.get_eq_getElem, hn] at h
  exact Option.noConfusion h

theorem sellCore_total (st1 : TDState) (sym : String) (position : ℤ)
    (hist : List Bar) (data : Bar) (now : ℕ) (mr : Bool) (cb : ℚ) (w : ℚ)
    (hw : st1.latest_scalp_basis sym = some w) (hw0 : w ≠ 0)
    (hbt : (st1.buy_time sym).isSome)
    (htp : (st1.target_prices sym).isSome)
    (hsp : (st1.stop_prices sym).isSome)
    (hse : sessionCloses hist ≠ []) :
    ∃ b o, (sellCore st1 sym position hist data now mr cb).2 = .ok (b, o) := by
  obtain ⟨bt, hbt⟩ := Option.isSome_iff_exists.mp hbt
  obtain ⟨tp, htp⟩ := Option.isSome_iff_exists.mp htp
  obtain ⟨sp, hsp⟩ := Option.isSome_iff_exists.mp hsp
  have hslen : 0 < (sessionCloses hist).length := List.length_pos.mpr hse
  unfold sellCore
  simp only []
  split
  · rename_i e heq
    exfalso
    by_cases hv : data.vwap ≠ 0
    · rw [if_pos hv, if_neg (by simp [List.isEmpty_iff, hse])] at heq
      exact Except.noConfusion heq
    · rw [if_neg hv] at heq
      exact Except.noConfusion heq
  · rename_i serie2 heq
    have hs2len : serie2.length = (sessionCloses hist).length := by
      by_cases hv : data.vwap ≠ 0
      · rw [if_pos hv, if_neg (by simp [List.isEmpty_iff, hse])] at heq
        simp only [Except.ok.injEq] at heq
        rw [← heq]
        exact setLast_length _ _ hse
      · rw [if_neg hv] at heq
        simp only [Except.ok.injEq] at heq
        rw [← heq]
    have hml : (macdCalc serie2).1.length = serie2.length := macdLine_length serie2
    have hsl : (macdCalc serie2).2.length = serie2.length := sig_length serie2
    rw [hw]
    simp only []
    rw [if_neg hw0, hbt]
    simp only []
    rw [aidx_lt _ 0 (by omega : 0 < (macdCalc serie2).1.length)]
    simp only []
    rw [aidx_lt _ 0 (by omega : 0 < (macdCalc serie2).2.length)]
    simp only []
    rw [htp]
    simp only []
    split
    · rename_i e heq2
      exfalso
      rw [apply_ite (fun r : Except PyErr Bool => r = .error e)] at heq2
      revert heq2
      split
      · rename_i hgg
        intro heq2
        simp only [Bool.or_eq_true, Bool.and_eq_true] at hgg
        have hmbs : oLT
            (oRound (round_factor
              ((macdCalc serie2).1.get ⟨(macdCalc serie2).1.length - 1 - 0, by omega⟩)
              ((macdCalc serie2).2.get ⟨(macdCalc serie2).2.length - 1 - 0, by omega⟩))
              ((macdCalc serie2).1.get ⟨(macdCalc serie2).1.length - 1 - 0, by omega⟩))
            (oRound (round_factor
              ((macdCalc serie2).1.get ⟨(macdCalc serie2).1.length - 1 - 0, by omega⟩)
              ((macdCalc serie2).2.get ⟨(macdCalc serie2).2.length - 1 - 0, by omega⟩))
              ((macdCalc serie2).2.get ⟨(macdCalc serie2).2.length - 1 - 0, by omega⟩)) =
            true := by
          rcases hgg with ⟨-, hmbs⟩ | ⟨-, hmbs⟩ <;> exact hmbs
        obtain ⟨x, -, hx, -, -⟩ := oLT_some_left hmbs
        obtain ⟨q, hq⟩ := oRound_some hx
        have h20 := macd_get_some_idx serie2 q ((macdCalc serie2).1.length - 1 - 0)
          (by omega) hq
        rw [aidx_lt _ 1 (by omega : 1 < (macdCalc serie2).1.length)] at heq2
        exact Except.noConfusion heq2
      · intro heq2
        exact Except.noConfusion heq2
    · rename_i falling heq2
      rw [hsp]
      rw [aidx_lt _ 0 (by rw [rsiCalc_length]; omega : 0 < (rsiCalc 14 (sessionCloses hist)).length)]
      exact exitOrder_ok st1 sym position data.close sp tp _ _ _ _ _ _ now

/-- C7 (amended): under the exit preconditions — sell-eligible window,
positive position, recorded cost basis, matching owning strategy, no
pending order — and provided the per-symbol store also holds a nonzero
scalp basis, a buy timestamp, a target price and a stop price, the history
has the two rows the leading `iloc` reads index and a nonempty in-session
close series, the exit evaluation is total: it returns a result and raises
nothing, so in particular the configuration error cannot arise on this
path. Absent those extra store entries a lookup error is possible (see the
counterexample), so the claim's "only raisable error is the configuration
error" is too strong as stated. -/
theorem claim_C7_exit_total (cfg : Config) (st : TDState) (sym : String)
    (position : ℤ) (hist : List Bar) (now : ℕ) (pv : Option ℚ)
    (api : Option (ℕ → Except FetchErr ℚ)) (ibt : Bool) (w : ℚ)
    (hpos : 0 < position)
    (hcb : (st.latest_cost_basis sym).isSome)
    (hlus : st.last_used_strategy sym = some "momentum_long_v5")
    (hoo : st.open_orders sym = false)
    (hw : st.latest_scalp_basis sym = some w) (hw0 : w ≠ 0)
    (hbt : (st.buy_time sym).isSome)
    (htp : (st.target_prices sym).isSome)
    (hsp : (st.stop_prices sym).isSome)
    (h2 : 2 ≤ hist.length)
    (hse : sessionCloses hist ≠ []) :
    ∃ b o, (run cfg st sym position hist now pv api ibt true).2 = .ok (b, o) := by
  obtain ⟨cb, hcb⟩ := Option.isSome_iff_exists.mp hcb
  have hguard : sellGuard st sym position true = .ok true := by
    unfold sellGuard
    rw [if_pos (by simp [hpos, hcb]), hlus]
    simp [hoo]
  unfold run
  rw [if_neg (by omega)]
  simp only []
  have hgf : (ibt && decide (position = 0) && !st.open_orders sym) = false := by
    simp [show position ≠ 0 from by omega]
  rw [hgf]
  simp only [Bool.false_eq_true, if_false, hguard]
  unfold sellEval
  rw [hcb]
  simp only []
  split
  · exact sellCore_total _ sym position hist _ now _ cb w hw hw0 hbt htp hsp hse
  · exact sellCore_total _ sym position hist _ now _ cb w hw hw0 hbt htp hsp hse

/-- C7 counterexample: all of the claim's stated preconditions hold —
sell-eligible window, position 2, recorded cost basis, matching strategy,
no pending order — yet the evaluation raises a lookup error, not the
configuration error, because the scalp-basis read at line 270 finds no
entry. -/
theorem claim_C7_counterexample :
    (stNoScalp.latest_cost_basis "A").isSome = true ∧
    stNoScalp.last_used_strategy "A" = some "momentum_long_v5" ∧
    stNoScalp.open_orders "A" = false ∧
    (run cfgEx stNoScalp "A" 2 histShort 36000 none none false true).2 =
      .error .keyError := by
  refine ⟨rfl, rfl, rfl, ?_⟩
  norm_num [run, cfgEx, stNoScalp, stExit, emptyState, upd, histShort, sellGuard,
    sellEval, sellCore, sessionCloses, sessionBars, inSession, setLast, aidx,
    macdCalc, macdLine, signalCalc, ema, emaScan]

/-- C7 witness: with the complete exit context of `stExit` the evaluation
returns a result. -/
theorem claim_C7_exit_total_witness :
    ∃ b o, (run cfgEx stExit "A" 2 histShort 36000 none none false true).2 =
      .ok (b, o) :=
  claim_C7_exit_total cfgEx stExit "A" 2 histShort 36000 none none false 100
    (by norm_num) rfl rfl rfl rfl (by norm_num) rfl rfl rfl (by decide) (by decide)

/-- C6 witness: at timestamp 36125 s (truncated minute 36120, at or before
the 36420 s expiry) the entry evaluation is suppressed with no action and
the cooldown field is left unchanged. -/
theorem claim_C6_cooldown_witness :
    (run cfgEx stCool "A" 0 histEntry 36125 none none true false).2 =
      .ok (false, none) ∧
    (run cfgEx stCool "A" 0 histEntry 36125 none none true false).1.cool_down "A" =
      some 36420 :=
  (claim_C6_cooldown cfgEx stCool "A" histEntry 36125 none none false 36420
    (by decide) rfl).1 rfl (by decide)

end MV5
